import Mathlib

/-!
Verification of the duplicate-transaction detector of the ledger repository.

The detector lives in src/plugins/find_duplicates.py (canonical copy) and in
ledger/plugins/find_duplicates.py (a second copy that keeps the legacy short
configuration keys).  The embedding below follows the Python source line by
line:

* Decimal and float values are embedded as exact rationals.
* A calendar date is embedded as its day ordinal, an integer, so that the
  Python expression (b.date - a.date).days becomes plain integer subtraction.
* Python sorted (a stable ascending sort) is embedded as insertion sort,
  which is stable and computes structurally.
* Python dict iteration order (insertion order of keys) is embedded as an
  association list that appends new keys at the end.
* A Python function that can raise (int, Decimal, float applied to a
  malformed string) is embedded in Except String.
* The configuration string reaches parse_config already split into tokens
  (the shlex.split step); parse_config consumes the token list.
* logging.warning is embedded by threading the list of warning messages
  through the run and returning it next to the diagnostics.
-/

/- The Batteries rational operations are marked irreducible, which blocks
kernel evaluation of concrete scores; restore the default reducibility so
that concrete runs of the detector can be settled by decide. -/
set_option allowUnsafeReducibility true in
attribute [semireducible] Rat.add Rat.mul Rat.inv Rat.sub Rat.ofScientific

deriving instance DecidableEq for Except

namespace FindDup

/-- A posting of a transaction: an account name and an optional
(number, currency) pair; units is none for an elided amount. -/
structure Posting where
  account : String
  units : Option (ℚ × String)
deriving Repr, DecidableEq

/-- A transaction as consumed by the detector: a date (day ordinal), tags,
metadata (the empty list embeds both an absent and an empty mapping, which
Python treats alike as falsy) and postings. -/
structure Transaction where
  date : ℤ
  tags : List String
  meta : List (String × String)
  postings : List Posting
deriving Repr, DecidableEq

/-- A ledger entry: a transaction or some other directive (opaque here). -/
inductive Entry where
  | txn (t : Transaction)
  | other (directive : String)
deriving Repr, DecidableEq

/-- The typed configuration record.  The fields carry the canonical key
names of the src copy; unknown keys are kept in extra as floats. -/
structure Config where
  error_score_threshold : ℚ
  warn_score_threshold : ℚ
  date_window_days : ℤ
  amount_tolerance : ℚ
  cash_accounts_only : Bool
  require_property_match : Bool
  extra : List (String × ℚ)
deriving Repr, DecidableEq

/-- _DEFAULT_CONFIG of find_duplicates.py. -/
def DEFAULT_CONFIG : Config :=
  { error_score_threshold := 0.95
    warn_score_threshold := 0.80
    date_window_days := 3
    amount_tolerance := 0.03
    cash_accounts_only := false
    require_property_match := false
    extra := [] }

/-- str.startswith of Python, over the character lists (the library
String.startsWith does not evaluate in the kernel). -/
def strStartsWith (s pre : String) : Bool :=
  pre.toList.isPrefixOf s.toList

/-- str.lower of Python, over the character lists. -/
def strLower (s : String) : String :=
  String.mk (s.toList.map Char.toLower)

/-- Split a character list at every occurrence of the separator, the
str.split of Python with a separator argument. -/
def listSplitOn (sep : Char) : List Char → List (List Char)
  | [] => [[]]
  | c :: cs =>
    match listSplitOn sep cs with
    | [] => [[c]]
    | g :: gs => if c = sep then [] :: g :: gs else (c :: g) :: gs

/-- The colon split applied to account names. -/
def splitOnColon (s : String) : List String :=
  (listSplitOn ':' s.toList).map String.mk

/-- Split a character list at the first equals sign, when present. -/
def splitEqChars : List Char → Option (List Char × List Char)
  | [] => none
  | c :: cs =>
    if c = '=' then some ([], cs)
    else (splitEqChars cs).map fun kv => (c :: kv.1, kv.2)

/-- Python int(value): optional sign followed by at least one digit.
Returns none when the string is malformed (Python raises ValueError). -/
def parseIntS (s : String) : Option ℤ :=
  let signDigits : ℤ × List Char :=
    match s.toList with
    | '-' :: rest => (-1, rest)
    | '+' :: rest => (1, rest)
    | cs => (1, cs)
  if signDigits.2 ≠ [] ∧ signDigits.2.all Char.isDigit then
    some (signDigits.1 *
      (signDigits.2.foldl (fun n c => 10 * n + (c.toNat - '0'.toNat)) 0 : ℕ))
  else none

/-- Python decimal.Decimal(value) on a plain literal: optional sign, an
integer part and an optional fractional part, with at least one digit in
all.  The value is exact.  Returns none when malformed (Python raises). -/
def parseDecimalS (s : String) : Option ℚ :=
  let signBody : ℚ × List Char :=
    match s.toList with
    | '-' :: rest => (-1, rest)
    | '+' :: rest => (1, rest)
    | cs => (1, cs)
  let intPart := signBody.2.takeWhile Char.isDigit
  let rest := signBody.2.drop intPart.length
  let fracOk : Bool × List Char :=
    match rest with
    | [] => (true, [])
    | '.' :: frac => (frac.all Char.isDigit, frac)
    | _ => (false, [])
  if fracOk.1 ∧ (intPart ≠ [] ∨ fracOk.2 ≠ []) then
    let intVal : ℕ := intPart.foldl (fun n c => 10 * n + (c.toNat - '0'.toNat)) 0
    let fracVal : ℕ := fracOk.2.foldl (fun n c => 10 * n + (c.toNat - '0'.toNat)) 0
    some (signBody.1 * ((intVal : ℚ) + (fracVal : ℚ) / (10 : ℚ) ^ fracOk.2.length))
  else none

/-- Python float(value), embedded as the exact rational the literal denotes
(binary rounding is not modelled).  Returns none when malformed. -/
def parseFloatS (s : String) : Option ℚ :=
  parseDecimalS s

/-- The membership test value.lower() in the set of the strings 1, true,
yes, used for both boolean configuration keys. -/
def truthy (value : String) : Bool :=
  ["1", "true", "yes"].contains (strLower value)

/-- The per-token split: a token without an equals sign yields none (the
token is ignored); otherwise the token splits at the first equals sign. -/
def splitEq (part : String) : Option (String × String) :=
  (splitEqChars part.toList).map fun kv => (String.mk kv.1, String.mk kv.2)

/-- The alias table of parse_config: legacy short key names map to the
canonical long names, applied before type coercion. -/
def aliasKey (key : String) : String :=
  if key = "warn_threshold" then "warn_score_threshold"
  else if key = "error_threshold" then "error_score_threshold"
  else if key = "window" then "date_window_days"
  else if key = "tolerance" then "amount_tolerance"
  else if key = "cash_only" then "cash_accounts_only"
  else if key = "property_match" then "require_property_match"
  else key

/-- One key, value assignment of parse_config (src copy), after aliasing:
coercion is selected by the canonical key, every unmatched key goes through
float, and the threshold keys are unmatched keys that land on their own
fields while truly unknown keys are appended to extra. -/
def setConfigValue (cfg : Config) (key value : String) : Except String Config :=
  if key = "date_window_days" then
    match parseIntS value with
    | some n => .ok { cfg with date_window_days := n }
    | none => .error ("invalid literal for int: " ++ value)
  else if key = "amount_tolerance" then
    match parseDecimalS value with
    | some q => .ok { cfg with amount_tolerance := q }
    | none => .error ("invalid decimal literal: " ++ value)
  else if key = "cash_accounts_only" then
    .ok { cfg with cash_accounts_only := truthy value }
  else if key = "require_property_match" then
    .ok { cfg with require_property_match := truthy value }
  else
    match parseFloatS value with
    | some q =>
      if key = "error_score_threshold" then .ok { cfg with error_score_threshold := q }
      else if key = "warn_score_threshold" then .ok { cfg with warn_score_threshold := q }
      else .ok { cfg with extra := cfg.extra ++ [(key, q)] }
    | none => .error ("could not convert string to float: " ++ value)

/-- The loop body of parse_config (src copy): ignore a token without an
equals sign, otherwise resolve the alias table and assign. -/
def parseStep (cfg : Config) (part : String) : Except String Config :=
  match splitEq part with
  | none => .ok cfg
  | some kv => setConfigValue cfg (aliasKey kv.1) kv.2

/-- parse_config of the src copy: fold the tokens over the default
configuration, ignoring tokens without an equals sign and resolving the
alias table before coercion.  A malformed value aborts the whole parse. -/
def parse_config (tokens : List String) : Except String Config :=
  tokens.foldlM parseStep DEFAULT_CONFIG

/-- Python min of two values: the first one when it is at most the
second (min keeps the first argument on ties). -/
def pymin (a b : ℚ) : ℚ := if a ≤ b then a else b

/-- Python max of two values: the first one when it is at least the
second (max keeps the first argument on ties). -/
def pymax (a b : ℚ) : ℚ := if b ≤ a then a else b

/-- _postings_for_amount: the postings considered for amount comparisons:
those with units present, restricted to accounts starting with Assets:
when cash_only holds. -/
def postings_for_amount (txn : Transaction) (cash_only : Bool) : List Posting :=
  txn.postings.filter fun p =>
    p.units.isSome && (!cash_only || strStartsWith p.account "Assets:")

/-- net_amount: the sum of the numbers of the postings considered for
amount comparisons, or none when no posting is considered. -/
def net_amount (txn : Transaction) (cash_only : Bool) : Option ℚ :=
  let postings := postings_for_amount txn cash_only
  if postings = [] then none
  else
    some (postings.foldl
      (fun total p => total + (match p.units with | some u => u.1 | none => 0)) 0)

/-- _first_currency: the currency of the first posting considered for
amount comparisons, or none when no posting is considered. -/
def first_currency (txn : Transaction) (cash_only : Bool) : Option String :=
  match postings_for_amount txn cash_only with
  | [] => none
  | p :: _ => p.units.map Prod.snd

/-- cash_accounts: the accounts of the postings whose account starts with
Assets: (a set in Python; the list is only ever inspected for shared
members, so duplicates are harmless). -/
def cash_accounts (txn : Transaction) : List String :=
  (txn.postings.filter fun p => strStartsWith p.account "Assets:").map Posting.account

/-- _PROPERTY_RE, the anchored pattern: three or four digits, a hyphen,
then a letter (with arbitrary trailing text). -/
def property_re_match (s : String) : Bool :=
  match s.toList with
  | d1 :: d2 :: d3 :: rest =>
    d1.isDigit && d2.isDigit && d3.isDigit &&
      (match rest with
       | '-' :: c :: _ => c.isAlpha
       | d4 :: '-' :: c :: _ => d4.isDigit && c.isAlpha
       | _ => false)
  | _ => false

/-- property_tokens: matching tags and matching colon-delimited account
segments, case-folded; a set in Python, embedded as a list without
duplicates. -/
def property_tokens (txn : Transaction) : List String :=
  (((txn.tags.filter property_re_match).map strLower)
    ++ ((txn.postings.flatMap fun p => splitOnColon p.account).filter
          property_re_match).map strLower).dedup

/-- _has_property_tokens: both transactions carry at least one property
token. -/
def has_property_tokens (txn_a txn_b : Transaction) : Bool :=
  !(property_tokens txn_a).isEmpty && !(property_tokens txn_b).isEmpty

/-- property_score: 1.0 when both token sets are non-empty and intersect,
else 0.0. -/
def property_score (txn_a txn_b : Transaction) : ℚ :=
  let tokens_a := property_tokens txn_a
  let tokens_b := property_tokens txn_b
  if tokens_a.isEmpty || tokens_b.isEmpty then 0.0
  else if tokens_a.any fun t => tokens_b.contains t then 1.0 else 0.0

/-- amount_score: 1.0 when both net amounts exist and differ by at most
the tolerance, else 0.0. -/
def amount_score (txn_a txn_b : Transaction) (tolerance : ℚ) (cash_only : Bool) : ℚ :=
  match net_amount txn_a cash_only, net_amount txn_b cash_only with
  | some amount_a, some amount_b =>
    if |amount_a - amount_b| ≤ tolerance then 1.0 else 0.0
  | _, _ => 0.0

/-- date_score: linear decay of the day gap over the window; 0.0 when the
window is not positive. -/
def date_score (txn_a txn_b : Transaction) (window : ℤ) : ℚ :=
  if window ≤ 0 then 0.0
  else pymax 0.0 (1.0 - ((|txn_a.date - txn_b.date| : ℤ) : ℚ) / (window : ℚ))

/-- account_score: 1.0 when the two cash-account sets intersect, else
0.0. -/
def account_score (txn_a txn_b : Transaction) : ℚ :=
  if (cash_accounts txn_a).any (fun acct => (cash_accounts txn_b).contains acct)
  then 1.0 else 0.0

/-- The component breakdown returned next to the score: the parts dict of
the Python code, whose property slot exists only when
require_property_match holds. -/
structure Parts where
  amount : ℚ
  date : ℚ
  account : ℚ
  property : Option ℚ
deriving Repr, DecidableEq

/-- confidence_score: the property veto when require_property_match holds,
then the weighted combination (weights 0.5, 0.3, 0.2, and 0.2 for the
property component when enabled) divided by the total weight when that
total is non-zero, clamped above by 1.0. -/
def confidence_score (txn_a txn_b : Transaction) (cfg : Config) : ℚ × Parts :=
  if cfg.require_property_match then
    let property_val := property_score txn_a txn_b
    if property_val = 0.0 ∧ has_property_tokens txn_a txn_b then
      (0.0, { amount := 0.0, date := 0.0, account := 0.0, property := some 0.0 })
    else
      let amount_val := amount_score txn_a txn_b cfg.amount_tolerance cfg.cash_accounts_only
      let date_val := date_score txn_a txn_b cfg.date_window_days
      let account_val := account_score txn_a txn_b
      let total_weight : ℚ := 0.5 + 0.3 + 0.2 + 0.2
      let weighted := 0.5 * amount_val + 0.3 * date_val + 0.2 * account_val
        + 0.2 * property_val
      let score := if total_weight = 0 then weighted else weighted / total_weight
      (pymin 1.0 score,
        { amount := amount_val, date := date_val, account := account_val,
          property := some property_val })
  else
    let amount_val := amount_score txn_a txn_b cfg.amount_tolerance cfg.cash_accounts_only
    let date_val := date_score txn_a txn_b cfg.date_window_days
    let account_val := account_score txn_a txn_b
    let total_weight : ℚ := 0.5 + 0.3 + 0.2
    let weighted := 0.5 * amount_val + 0.3 * date_val + 0.2 * account_val
    let score := if total_weight = 0 then weighted else weighted / total_weight
    (pymin 1.0 score,
      { amount := amount_val, date := date_val, account := account_val,
        property := none })

/-- Rendering of a rational with two decimals, the Python format %.2f
(round half to even at the second decimal). -/
def fmt2 (q : ℚ) : String :=
  let scaled := q * 100
  let fl : ℤ := ⌊scaled⌋
  let frac := scaled - fl
  let r : ℤ :=
    if frac < 1 / 2 then fl
    else if 1 / 2 < frac then fl + 1
    else if fl % 2 = 0 then fl else fl + 1
  let sign := if r < 0 then "-" else ""
  let m := r.natAbs
  sign ++ toString (m / 100) ++ "."
    ++ (if m % 100 < 10 then "0" else "") ++ toString (m % 100)

/-- message: the diagnostic text, with each part and the score rendered to
two decimals; the date (a day ordinal here) is rendered as an integer. -/
def message (txn_a txn_b : Transaction) (score : ℚ) (parts : Parts) : String :=
  let detail := String.intercalate ", "
    (["amount=" ++ fmt2 parts.amount, "date=" ++ fmt2 parts.date,
      "account=" ++ fmt2 parts.account]
      ++ (match parts.property with
          | some v => ["property=" ++ fmt2 v]
          | none => []))
  "Duplicate confidence " ++ fmt2 score ++ " (" ++ detail ++ "): "
    ++ toString txn_b.date ++ " likely duplicates " ++ toString txn_a.date

/-- The DuplicateError named tuple: source metadata, message, entry. -/
structure DuplicateError where
  source : List (String × String)
  message : String
  entry : Transaction
deriving Repr, DecidableEq

/-- _error: the error diagnostic, sourced from the metadata of the later
transaction or, when that is falsy, from a fresh synthetic metadata. -/
def mkError (txn_b txn_a : Transaction) (score : ℚ) (parts : Parts) : DuplicateError :=
  let source :=
    if txn_b.meta.isEmpty
    then [("filename", "<find_duplicates>"), ("lineno", "0")]
    else txn_b.meta
  { source := source, message := message txn_a txn_b score parts, entry := txn_b }

/-- A bucket key of the index: the currency, and the absolute net amount
when the tolerance is exactly zero. -/
abbrev BucketKey := String × Option ℚ

/-- Append a transaction to the bucket of the given key, creating the
bucket at the end when the key is new (dict insertion order). -/
def insertBucket (index : List (BucketKey × List Transaction))
    (key : BucketKey) (txn : Transaction) : List (BucketKey × List Transaction) :=
  match index with
  | [] => [(key, [txn])]
  | (k, group) :: rest =>
    if k = key then (k, group ++ [txn]) :: rest
    else (k, group) :: insertBucket rest key txn

/-- index_transactions: bucket the transactions by currency, and by the
absolute net amount too when the tolerance is exactly zero; transactions
without a currency are dropped.  The branch for a missing net amount is
embedded as a skip and shown unreachable below. -/
def index_transactions (txns : List Transaction) (cfg : Config) :
    List (BucketKey × List Transaction) :=
  txns.foldl
    (fun index txn =>
      match first_currency txn cfg.cash_accounts_only with
      | none => index
      | some currency =>
        match net_amount txn cfg.cash_accounts_only with
        | none => index
        | some n =>
          let amount := |n|
          let key : BucketKey :=
            if cfg.amount_tolerance = 0 then (currency, some amount)
            else (currency, none)
          insertBucket index key txn)
    []

/-- The sort key of candidate_pairs: ascending date. -/
def dateLe (s t : Transaction) : Prop := s.date ≤ t.date

instance : DecidableRel dateLe := fun s t => inferInstanceAs (Decidable (s.date ≤ t.date))

instance : IsTotal Transaction dateLe := ⟨fun s t => le_total s.date t.date⟩

instance : IsTrans Transaction dateLe := ⟨fun _ _ _ h h2 => le_trans h h2⟩

/-- The inner loop of candidate_pairs: for each head, pair it with the
following transactions while the day gap stays within the window (the
loop breaks at the first transaction beyond the window). -/
def candidate_pairs_from : List Transaction → ℤ → List (Transaction × Transaction)
  | [], _ => []
  | txn_a :: rest, window =>
    ((rest.takeWhile fun txn_b => decide (|txn_b.date - txn_a.date| ≤ window)).map
        fun txn_b => (txn_a, txn_b))
      ++ candidate_pairs_from rest window

/-- candidate_pairs: sort the bucket by date (Python sorted is stable;
insertion sort here), then scan each suffix while within the window. -/
def candidate_pairs (txns : List Transaction) (window : ℤ) :
    List (Transaction × Transaction) :=
  candidate_pairs_from (txns.insertionSort dateLe) window

/-- The classification of one scored pair: append an error diagnostic at
or above the error threshold, otherwise log a warning at or above the warn
threshold, otherwise do nothing. -/
def classifyPair (cfg : Config) (acc : List DuplicateError × List String)
    (pair : Transaction × Transaction) : List DuplicateError × List String :=
  let scored := confidence_score pair.1 pair.2 cfg
  if cfg.error_score_threshold ≤ scored.1 then
    (acc.1 ++ [mkError pair.2 pair.1 scored.1 scored.2], acc.2)
  else if cfg.warn_score_threshold ≤ scored.1 then
    (acc.1, acc.2 ++ [message pair.1 pair.2 scored.1 scored.2])
  else acc

/-- The detection pass of plugin after configuration parsing: index, pair,
score and classify, accumulating the diagnostics and the logged
warnings. -/
def runDetector (cfg : Config) (txns : List Transaction) :
    List DuplicateError × List String :=
  (index_transactions txns cfg).foldl
    (fun acc group =>
      (candidate_pairs group.2 cfg.date_window_days).foldl (classifyPair cfg) acc)
    ([], [])

/-- The filter selecting the Transaction entries, in order. -/
def getTransactions (entries : List Entry) : List Transaction :=
  entries.filterMap fun e =>
    match e with
    | .txn t => some t
    | .other _ => none

/-- plugin: parse the configuration (a failure aborts the run), then run
the detection pass and return the unchanged entries, the diagnostics and
the logged warnings. -/
def plugin (entries : List Entry) (config_tokens : List String) :
    Except String (List Entry × List DuplicateError × List String) :=
  match parse_config config_tokens with
  | .error e => .error e
  | .ok cfg => .ok (entries, runDetector cfg (getTransactions entries))

namespace Ledger

/-!
The copy ledger/plugins/find_duplicates.py.  Its default dict uses the
legacy short key names and parse_config has no alias table; every other
function of that file is character for character the one of the src copy,
so the shared definitions above embed both.  The short dict keys window,
tolerance, cash_only, property_match, warn_threshold, error_threshold map
onto the same configuration slots, embedded by the same Config fields.
-/

/-- One key, value assignment of parse_config of the ledger copy: the
coercion is selected directly by the short key. -/
def setConfigValue (cfg : Config) (key value : String) : Except String Config :=
  if key = "window" then
    match parseIntS value with
    | some n => .ok { cfg with date_window_days := n }
    | none => .error ("invalid literal for int: " ++ value)
  else if key = "tolerance" then
    match parseDecimalS value with
    | some q => .ok { cfg with amount_tolerance := q }
    | none => .error ("invalid decimal literal: " ++ value)
  else if key = "cash_only" then
    .ok { cfg with cash_accounts_only := truthy value }
  else if key = "property_match" then
    .ok { cfg with require_property_match := truthy value }
  else
    match parseFloatS value with
    | some q =>
      if key = "error_threshold" then .ok { cfg with error_score_threshold := q }
      else if key = "warn_threshold" then .ok { cfg with warn_score_threshold := q }
      else .ok { cfg with extra := cfg.extra ++ [(key, q)] }
    | none => .error ("could not convert string to float: " ++ value)

/-- The loop body of parse_config of the ledger copy: no alias table. -/
def parseStep (cfg : Config) (part : String) : Except String Config :=
  match splitEq part with
  | none => .ok cfg
  | some kv => setConfigValue cfg kv.1 kv.2

/-- parse_config of the ledger copy: as the src copy but with no alias
table. -/
def parse_config (tokens : List String) : Except String Config :=
  tokens.foldlM parseStep DEFAULT_CONFIG

/-- plugin of the ledger copy: the same pass over the entries, driven by
the short-key parse_config. -/
def plugin (entries : List Entry) (config_tokens : List String) :
    Except String (List Entry × List DuplicateError × List String) :=
  match parse_config config_tokens with
  | .error e => .error e
  | .ok cfg => .ok (entries, runDetector cfg (getTransactions entries))

end Ledger

/-- The indexing step with the guard on a missing net amount removed: the
net amount is read off directly (substituting zero in the impossible
missing case).  Agreement with index_transactions shows the guard of the
source unreachable. -/
def index_transactions_unguarded (txns : List Transaction) (cfg : Config) :
    List (BucketKey × List Transaction) :=
  txns.foldl
    (fun index txn =>
      match first_currency txn cfg.cash_accounts_only with
      | none => index
      | some currency =>
        let amount := |(net_amount txn cfg.cash_accounts_only).getD 0|
        let key : BucketKey :=
          if cfg.amount_tolerance = 0 then (currency, some amount)
          else (currency, none)
        insertBucket index key txn)
    []

/-- The exhaustive variant of the candidate scan, with no early loop
break: for each position, every strictly later transaction within the
window is paired. -/
def window_pairs_from : List Transaction → ℤ → List (Transaction × Transaction)
  | [], _ => []
  | txn_a :: rest, window =>
    ((rest.filter fun txn_b => decide (|txn_b.date - txn_a.date| ≤ window)).map
        fun txn_b => (txn_a, txn_b))
      ++ window_pairs_from rest window

/-- All pairs of date-sorted transactions, earlier position first, whose
day gap is within the window: the set of pairs the candidate generator is
claimed to yield exactly. -/
def window_pairs (txns : List Transaction) (window : ℤ) :
    List (Transaction × Transaction) :=
  window_pairs_from (txns.insertionSort dateLe) window

/-- Taken from the spec wording: the coercion step of the config parser,
selected by the canonical key: date_window_days to integer,
amount_tolerance to exact decimal, the two boolean keys to the lowercased
membership test in 1, true, yes, and every other key to float, threshold
keys landing on their fields and unknown keys being stored. -/
def coerceValueSpec (cfg : Config) (key value : String) : Except String Config :=
  if key = "date_window_days" then
    match parseIntS value with
    | some n => .ok { cfg with date_window_days := n }
    | none => .error ("invalid literal for int: " ++ value)
  else if key = "amount_tolerance" then
    match parseDecimalS value with
    | some q => .ok { cfg with amount_tolerance := q }
    | none => .error ("invalid decimal literal: " ++ value)
  else if key = "cash_accounts_only" ∨ key = "require_property_match" then
    .ok (if key = "cash_accounts_only" then
          { cfg with cash_accounts_only := ["1", "true", "yes"].contains (strLower value) }
        else
          { cfg with require_property_match := ["1", "true", "yes"].contains (strLower value) })
  else
    match parseFloatS value with
    | some q =>
      .ok (if key = "error_score_threshold" then { cfg with error_score_threshold := q }
          else if key = "warn_score_threshold" then { cfg with warn_score_threshold := q }
          else { cfg with extra := cfg.extra ++ [(key, q)] })
    | none => .error ("could not convert string to float: " ++ value)

/-- The coercion pass of the spec wording: a dropped token does nothing,
a canonicalized key, value pair is coerced by the canonical key. -/
def coerceStepSpec (cfg : Config) (item : Option (String × String)) :
    Except String Config :=
  match item with
  | none => .ok cfg
  | some kv => coerceValueSpec cfg kv.1 kv.2

/-- Taken from the spec wording of the config parser: first map each
legacy short key to its canonical long name (tokens without an equals sign
are dropped), then coerce each value by its canonical key. -/
def parse_config_spec (tokens : List String) : Except String Config :=
  (tokens.map fun part => (splitEq part).map fun kv => (aliasKey kv.1, kv.2)).foldlM
    coerceStepSpec DEFAULT_CONFIG

/-- The six legacy short configuration keys. -/
def shortKeys : List String :=
  ["warn_threshold", "error_threshold", "window", "tolerance", "cash_only",
   "property_match"]

/-- A candidate pair scoring at or above the error threshold (the pairs
that become error diagnostics). -/
def isErrorPair (cfg : Config) (p : Transaction × Transaction) : Bool :=
  decide (cfg.error_score_threshold ≤ (confidence_score p.1 p.2 cfg).1)

/-- A candidate pair scoring below the error threshold but at or above
the warn threshold (the pairs that become logged warnings). -/
def isWarnPair (cfg : Config) (p : Transaction × Transaction) : Bool :=
  !isErrorPair cfg p
    && decide (cfg.warn_score_threshold ≤ (confidence_score p.1 p.2 cfg).1)

/-- A cash posting of 100.00 USD, for the concrete scenarios. -/
def examplePostingCash : Posting :=
  { account := "Assets:Cash:Checking", units := some (100, "USD") }

/-- An elided-amount income posting, for the concrete scenarios. -/
def examplePostingIncome : Posting :=
  { account := "Income:Rent", units := none }

/-- A transaction of 100.00 USD on day 100. -/
def exampleTxnA : Transaction :=
  { date := 100, tags := [], meta := [("comments", "test")],
    postings := [examplePostingCash, examplePostingIncome] }

/-- A transaction of 100.00 USD on day 101, one day after exampleTxnA. -/
def exampleTxnB : Transaction :=
  { date := 101, tags := [], meta := [("comments", "test")],
    postings := [examplePostingCash, examplePostingIncome] }

/-- The default configuration with property matching switched on. -/
def configProp : Config :=
  { DEFAULT_CONFIG with require_property_match := true }

/-- A transaction tagged with the property token 206-hoover-ave. -/
def propertyTxnA : Transaction :=
  { date := 100, tags := ["206-hoover-ave"], meta := [("comments", "test")],
    postings := [examplePostingCash] }

/-- A transaction tagged with the property token 2943-butterfly-palm. -/
def propertyTxnB : Transaction :=
  { date := 100, tags := ["2943-butterfly-palm"], meta := [("comments", "test")],
    postings := [examplePostingCash] }

/-- An entries list holding a non-transaction directive next to the two
example transactions. -/
def exampleEntries : List Entry :=
  [.other "2020-01-01 open Assets:Cash:Checking", .txn exampleTxnA, .txn exampleTxnB]

end FindDup

namespace FindDup

theorem property_score_eq_zero {txn_a txn_b : Transaction}
    (hdisj : ∀ t ∈ property_tokens txn_a, t ∉ property_tokens txn_b) :
    property_score txn_a txn_b = 0.0 := by
  unfold property_score
  simp
  intro _ _ t ht hmem
  exact absurd hmem (hdisj t ht)

/-- C1: with require_property_match set, two transactions whose property
token sets are both non-empty and disjoint short-circuit to the all-zero
score with the all-zero component breakdown, whatever the amount, date
and account agreement. -/
theorem claim_C1 (txn_a txn_b : Transaction) (cfg : Config)
    (hreq : cfg.require_property_match = true)
    (ha : property_tokens txn_a ≠ [])
    (hb : property_tokens txn_b ≠ [])
    (hdisj : ∀ t ∈ property_tokens txn_a, t ∉ property_tokens txn_b) :
    confidence_score txn_a txn_b cfg
      = (0.0, { amount := 0.0, date := 0.0, account := 0.0, property := some 0.0 }) := by
  have hps := property_score_eq_zero hdisj
  have hhp : has_property_tokens txn_a txn_b = true := by
    simp [has_property_tokens, List.isEmpty_iff, ha, hb]
  unfold confidence_score
  rw [hreq]
  simp [hps, hhp]

theorem claim_C1_witness :
    confidence_score propertyTxnA propertyTxnB configProp
      = (0.0, { amount := 0.0, date := 0.0, account := 0.0, property := some 0.0 }) :=
  claim_C1 propertyTxnA propertyTxnB configProp (by decide) (by decide) (by decide)
    (by decide)

/-- C2: two transactions with the same currency, equal net amounts of
100.00, dates one day apart and a shared Assets posting account score
amount 1.0, date 1 - 1/3, account 1.0, for a combined 0.90, at least the
warn threshold and below the error threshold of the default
configuration, so the run emits exactly one warning and returns no
diagnostics. -/
theorem claim_C2 :
    confidence_score exampleTxnA exampleTxnB DEFAULT_CONFIG
        = (0.90, { amount := 1.0, date := 1 - 1/3, account := 1.0, property := none })
      ∧ DEFAULT_CONFIG.warn_score_threshold ≤ 0.90
      ∧ 0.90 < DEFAULT_CONFIG.error_score_threshold
      ∧ plugin [.txn exampleTxnA, .txn exampleTxnB] []
          = .ok ([.txn exampleTxnA, .txn exampleTxnB], [],
              [message exampleTxnA exampleTxnB 0.90
                { amount := 1.0, date := 1 - 1/3, account := 1.0, property := none }])
      ∧ (runDetector DEFAULT_CONFIG [exampleTxnA, exampleTxnB]).1 = []
      ∧ (runDetector DEFAULT_CONFIG [exampleTxnA, exampleTxnB]).2.length = 1 := by
  refine ⟨by decide, by decide, by decide, by decide, by decide, by decide⟩

/-- C7: the run either aborts with the configuration parse failure, with
no diagnostics and no detection work done, or returns the complete result
of a full pass over the unchanged entries. -/
theorem claim_C7 (entries : List Entry) (tokens : List String) :
    (∀ e, parse_config tokens = .error e → plugin entries tokens = .error e)
    ∧ (∀ cfg, parse_config tokens = .ok cfg →
        plugin entries tokens = .ok (entries, runDetector cfg (getTransactions entries))) := by
  constructor
  · intro e he
    unfold plugin
    rw [he]
  · intro cfg hc
    unfold plugin
    rw [hc]

theorem claim_C7_witness :
    plugin [.txn exampleTxnA] ["window=abc"] = .error "invalid literal for int: abc"
    ∧ plugin [.txn exampleTxnA] ["window=5"]
        = .ok ([.txn exampleTxnA],
            runDetector { DEFAULT_CONFIG with date_window_days := 5 }
              (getTransactions [.txn exampleTxnA])) :=
  ⟨(claim_C7 [.txn exampleTxnA] ["window=abc"]).1 _ (by decide),
   (claim_C7 [.txn exampleTxnA] ["window=5"]).2 _ (by decide)⟩

/-- C8: whenever the run completes, the first component of the returned
value is the input entries sequence itself, unchanged, with
non-transaction entries passing through in place. -/
theorem claim_C8 (entries : List Entry) (tokens : List String)
    (result : List Entry × List DuplicateError × List String)
    (h : plugin entries tokens = .ok result) :
    result.1 = entries := by
  unfold plugin at h
  cases hp : parse_config tokens with
  | error e => rw [hp] at h; exact absurd h (by simp)
  | ok cfg =>
    rw [hp] at h
    cases h
    rfl

theorem claim_C8_witness :
    (exampleEntries, runDetector DEFAULT_CONFIG (getTransactions exampleEntries)).1
      = exampleEntries :=
  claim_C8 exampleEntries []
    (exampleEntries, runDetector DEFAULT_CONFIG (getTransactions exampleEntries)) rfl

end FindDup

namespace FindDup

theorem net_amount_isSome (txn : Transaction) (cash_only : Bool)
    (h : (first_currency txn cash_only).isSome) :
    (net_amount txn cash_only).isSome := by
  unfold first_currency at h
  unfold net_amount
  cases hp : postings_for_amount txn cash_only with
  | nil => rw [hp] at h; simp at h
  | cons p rest => simp [hp]

/-- C9: a transaction with a first currency always has a net amount, so
the missing-amount guard inside the indexing loop is unreachable: the
guarded and the unguarded indexer agree on every input. -/
theorem claim_C9 :
    (∀ (txn : Transaction) (cash_only : Bool),
        (first_currency txn cash_only).isSome → (net_amount txn cash_only).isSome)
    ∧ ∀ (txns : List Transaction) (cfg : Config),
        index_transactions txns cfg = index_transactions_unguarded txns cfg := by
  refine ⟨net_amount_isSome, fun txns cfg => ?_⟩
  unfold index_transactions index_transactions_unguarded
  suffices h : ∀ (init : List (BucketKey × List Transaction)), txns.foldl _ init = txns.foldl _ init from h []
  induction txns with
  | nil => intro init; rfl
  | cons txn rest ih =>
    intro init
    simp only [List.foldl_cons]
    cases hc : first_currency txn cfg.cash_accounts_only with
    | none => simpa [hc] using ih _
    | some currency =>
      have hs := net_amount_isSome txn cfg.cash_accounts_only (by simp [hc])
      cases hn : net_amount txn cfg.cash_accounts_only with
      | none => rw [hn] at hs; simp at hs
      | some n => simpa [hc, hn] using ih _

theorem amount_score_nonneg (txn_a txn_b : Transaction) (tol : ℚ) (c : Bool) :
    0 ≤ amount_score txn_a txn_b tol c := by
  unfold amount_score
  rcases net_amount txn_a c with _ | a <;> rcases net_amount txn_b c with _ | b <;>
    dsimp only <;> (try split_ifs) <;> norm_num

theorem date_score_nonneg (txn_a txn_b : Transaction) (w : ℤ) :
    0 ≤ date_score txn_a txn_b w := by
  unfold date_score pymax
  split_ifs with h1 h2
  · norm_num
  · norm_num
  · linarith [le_of_not_le h2]

theorem account_score_nonneg (txn_a txn_b : Transaction) :
    0 ≤ account_score txn_a txn_b := by
  unfold account_score
  split_ifs <;> norm_num

theorem property_score_nonneg (txn_a txn_b : Transaction) :
    0 ≤ property_score txn_a txn_b := by
  simp only [property_score]
  split_ifs <;> norm_num

theorem pymin_one_nonneg {s : ℚ} (hs : 0 ≤ s) : 0 ≤ pymin 1.0 s := by
  unfold pymin
  split_ifs
  · norm_num
  · exact hs

theorem pymin_one_le_one (s : ℚ) : pymin 1.0 s ≤ 1 := by
  unfold pymin
  split_ifs with h
  · norm_num
  · linarith [le_of_not_le h]

/-- C3: the confidence score is always inside the closed unit interval:
each component is non-negative, the weighted combination divided by the
positive total weight is non-negative, and the clamp bounds it by one. -/
theorem claim_C3 (txn_a txn_b : Transaction) (cfg : Config) :
    0 ≤ (confidence_score txn_a txn_b cfg).1
    ∧ (confidence_score txn_a txn_b cfg).1 ≤ 1 := by
  have ha := amount_score_nonneg txn_a txn_b cfg.amount_tolerance cfg.cash_accounts_only
  have hd := date_score_nonneg txn_a txn_b cfg.date_window_days
  have hc := account_score_nonneg txn_a txn_b
  have hp := property_score_nonneg txn_a txn_b
  simp only [confidence_score]
  split_ifs with h1 h2 h3 h4
  · dsimp only
    norm_num
  · dsimp only
    exact ⟨pymin_one_nonneg (by linarith), pymin_one_le_one _⟩
  · dsimp only
    exact ⟨pymin_one_nonneg (div_nonneg (by linarith) (by norm_num)),
      pymin_one_le_one _⟩
  · dsimp only
    exact ⟨pymin_one_nonneg (by linarith), pymin_one_le_one _⟩
  · dsimp only
    exact ⟨pymin_one_nonneg (div_nonneg (by linarith) (by norm_num)),
      pymin_one_le_one _⟩

theorem claim_C9_witness :
    (net_amount exampleTxnA false).isSome
    ∧ index_transactions [exampleTxnA] DEFAULT_CONFIG
        = index_transactions_unguarded [exampleTxnA] DEFAULT_CONFIG :=
  ⟨claim_C9.1 exampleTxnA false (by decide), claim_C9.2 [exampleTxnA] DEFAULT_CONFIG⟩

end FindDup

namespace FindDup

theorem classify_foldl_fst_length (cfg : Config)
    (pairs : List (Transaction × Transaction)) :
    ∀ acc : List DuplicateError × List String,
      ((pairs.foldl (classifyPair cfg) acc).1).length
        = acc.1.length + pairs.countP (isErrorPair cfg) := by
  induction pairs with
  | nil => intro acc; simp
  | cons p ps ih =>
    intro acc
    rw [List.foldl_cons, ih]
    unfold classifyPair
    by_cases h1 : cfg.error_score_threshold ≤ (confidence_score p.1 p.2 cfg).1
    · simp [h1, List.countP_cons, isErrorPair]
      omega
    · by_cases h2 : cfg.warn_score_threshold ≤ (confidence_score p.1 p.2 cfg).1 <;>
        simp [h1, h2, List.countP_cons, isErrorPair]

theorem classify_foldl_snd_length (cfg : Config)
    (pairs : List (Transaction × Transaction)) :
    ∀ acc : List DuplicateError × List String,
      ((pairs.foldl (classifyPair cfg) acc).2).length
        = acc.2.length + pairs.countP (isWarnPair cfg) := by
  induction pairs with
  | nil => intro acc; simp
  | cons p ps ih =>
    intro acc
    rw [List.foldl_cons, ih]
    unfold classifyPair
    by_cases h1 : cfg.error_score_threshold ≤ (confidence_score p.1 p.2 cfg).1
    · simp [h1, List.countP_cons, isWarnPair, isErrorPair]
    · by_cases h2 : cfg.warn_score_threshold ≤ (confidence_score p.1 p.2 cfg).1
      all_goals simp [h1, h2, List.countP_cons, isWarnPair, isErrorPair]
      all_goals omega

theorem runDetector_fst_length (cfg : Config) (txns : List Transaction) :
    (runDetector cfg txns).1.length
      = ((index_transactions txns cfg).map
          fun g => (candidate_pairs g.2 cfg.date_window_days).countP
            (isErrorPair cfg)).sum := by
  unfold runDetector
  suffices h : ∀ (groups : List (BucketKey × List Transaction))
      (acc : List DuplicateError × List String),
      ((groups.foldl
          (fun acc group =>
            (candidate_pairs group.2 cfg.date_window_days).foldl (classifyPair cfg) acc)
          acc).1).length
        = acc.1.length + (groups.map
            fun g => (candidate_pairs g.2 cfg.date_window_days).countP
              (isErrorPair cfg)).sum by
    simpa using h (index_transactions txns cfg) ([], [])
  intro groups
  induction groups with
  | nil => intro acc; simp
  | cons g gs ih =>
    intro acc
    rw [List.foldl_cons, ih, classify_foldl_fst_length]
    simp
    omega

theorem runDetector_snd_length (cfg : Config) (txns : List Transaction) :
    (runDetector cfg txns).2.length
      = ((index_transactions txns cfg).map
          fun g => (candidate_pairs g.2 cfg.date_window_days).countP
            (isWarnPair cfg)).sum := by
  unfold runDetector
  suffices h : ∀ (groups : List (BucketKey × List Transaction))
      (acc : List DuplicateError × List String),
      ((groups.foldl
          (fun acc group =>
            (candidate_pairs group.2 cfg.date_window_days).foldl (classifyPair cfg) acc)
          acc).2).length
        = acc.2.length + (groups.map
            fun g => (candidate_pairs g.2 cfg.date_window_days).countP
              (isWarnPair cfg)).sum by
    simpa using h (index_transactions txns cfg) ([], [])
  intro groups
  induction groups with
  | nil => intro acc; simp
  | cons g gs ih =>
    intro acc
    rw [List.foldl_cons, ih, classify_foldl_snd_length]
    simp
    omega

/-- C6: raising the error threshold never increases the number of error
diagnostics, and raising the warn threshold with the error threshold fixed
never increases the number of logged warnings. -/
theorem claim_C6 (entries : List Entry) (cfg : Config) :
    (∀ e1 e2 : ℚ, e1 ≤ e2 →
      ((runDetector { cfg with error_score_threshold := e2 }
          (getTransactions entries)).1).length
        ≤ ((runDetector { cfg with error_score_threshold := e1 }
          (getTransactions entries)).1).length)
    ∧ (∀ w1 w2 : ℚ, w1 ≤ w2 →
      ((runDetector { cfg with warn_score_threshold := w2 }
          (getTransactions entries)).2).length
        ≤ ((runDetector { cfg with warn_score_threshold := w1 }
          (getTransactions entries)).2).length) := by
  constructor
  · intro e1 e2 he
    rw [runDetector_fst_length, runDetector_fst_length]
    have hidx : index_transactions (getTransactions entries)
          { cfg with error_score_threshold := e2 }
        = index_transactions (getTransactions entries)
          { cfg with error_score_threshold := e1 } := rfl
    have hpairs : ∀ g : BucketKey × List Transaction,
        candidate_pairs g.2
            ({ cfg with error_score_threshold := e2 } : Config).date_window_days
          = candidate_pairs g.2
            ({ cfg with error_score_threshold := e1 } : Config).date_window_days :=
      fun g => rfl
    rw [hidx]
    refine List.sum_le_sum ?_
    intro g hg
    rw [hpairs g]
    refine List.countP_mono_left ?_
    intro p hp hdec
    have hcs : confidence_score p.1 p.2 { cfg with error_score_threshold := e2 }
        = confidence_score p.1 p.2 { cfg with error_score_threshold := e1 } := rfl
    simp only [isErrorPair, decide_eq_true_eq] at hdec ⊢
    rw [hcs] at hdec
    exact le_trans he hdec
  · intro w1 w2 hw
    rw [runDetector_snd_length, runDetector_snd_length]
    have hidx : index_transactions (getTransactions entries)
          { cfg with warn_score_threshold := w2 }
        = index_transactions (getTransactions entries)
          { cfg with warn_score_threshold := w1 } := rfl
    have hpairs : ∀ g : BucketKey × List Transaction,
        candidate_pairs g.2
            ({ cfg with warn_score_threshold := w2 } : Config).date_window_days
          = candidate_pairs g.2
            ({ cfg with warn_score_threshold := w1 } : Config).date_window_days :=
      fun g => rfl
    rw [hidx]
    refine List.sum_le_sum ?_
    intro g hg
    rw [hpairs g]
    refine List.countP_mono_left ?_
    intro p hp hdec
    have hcs : confidence_score p.1 p.2 { cfg with warn_score_threshold := w2 }
        = confidence_score p.1 p.2 { cfg with warn_score_threshold := w1 } := rfl
    have herr : isErrorPair { cfg with warn_score_threshold := w2 } p
        = isErrorPair { cfg with warn_score_threshold := w1 } p := rfl
    simp only [isWarnPair, Bool.and_eq_true, Bool.not_eq_eq_eq_not, Bool.not_true,
      decide_eq_true_eq] at hdec ⊢
    rcases hdec with ⟨hne, hwle⟩
    rw [hcs] at hwle
    refine ⟨?_, le_trans hw hwle⟩
    rw [← herr] at *
    exact hne

theorem claim_C6_witness :
    ((runDetector { DEFAULT_CONFIG with error_score_threshold := 0.99 }
        (getTransactions exampleEntries)).1).length
      ≤ ((runDetector { DEFAULT_CONFIG with error_score_threshold := 0.95 }
        (getTransactions exampleEntries)).1).length
    ∧ ((runDetector { DEFAULT_CONFIG with warn_score_threshold := 0.90 }
        (getTransactions exampleEntries)).2).length
      ≤ ((runDetector { DEFAULT_CONFIG with warn_score_threshold := 0.80 }
        (getTransactions exampleEntries)).2).length :=
  ⟨(claim_C6 exampleEntries DEFAULT_CONFIG).1 0.95 0.99 (by norm_num),
   (claim_C6 exampleEntries DEFAULT_CONFIG).2 0.80 0.90 (by norm_num)⟩

end FindDup

namespace FindDup

theorem setConfigValue_eq_coerce (cfg : Config) (key value : String) :
    setConfigValue cfg key value = coerceValueSpec cfg key value := by
  unfold setConfigValue coerceValueSpec truthy
  by_cases h1 : key = "date_window_days"
  · simp [h1]
  · by_cases h2 : key = "amount_tolerance"
    · simp [h1, h2]
    · by_cases h3 : key = "cash_accounts_only"
      · simp [h1, h2, h3]
      · by_cases h4 : key = "require_property_match"
        · simp [h1, h2, h3, h4]
        · simp only [h1, h2, h3, h4, if_false, if_neg, or_self]
          cases hF : parseFloatS value with
          | none => simp [h1, h2, h3, h4, hF]
          | some q =>
            simp only [h1, h2, h3, h4, hF, if_false, or_self]
            split_ifs <;> rfl

theorem parse_config_go (tokens : List String) : ∀ cfg : Config,
    tokens.foldlM parseStep cfg
      = (tokens.map fun part => (splitEq part).map fun kv => (aliasKey kv.1, kv.2)).foldlM
          coerceStepSpec cfg := by
  induction tokens with
  | nil => intro cfg; rfl
  | cons part rest ih =>
    intro cfg
    rw [List.map_cons, List.foldlM_cons, List.foldlM_cons]
    cases hs : splitEq part with
    | none =>
      have hstep : parseStep cfg part = .ok cfg := by simp [parseStep, hs]
      have hstep2 : coerceStepSpec cfg
          (Option.map (fun kv : String × String => (aliasKey kv.1, kv.2)) none) = .ok cfg := rfl
      rw [hstep, hstep2]
      exact ih cfg
    | some kv =>
      have hstep : parseStep cfg part = coerceValueSpec cfg (aliasKey kv.1) kv.2 := by
        simp [parseStep, hs, setConfigValue_eq_coerce]
      have hstep2 : coerceStepSpec cfg
          (Option.map (fun kv : String × String => (aliasKey kv.1, kv.2)) (some kv))
          = coerceValueSpec cfg (aliasKey kv.1) kv.2 := rfl
      rw [hstep, hstep2]
      cases hr : coerceValueSpec cfg (aliasKey kv.1) kv.2 with
      | error e => rfl
      | ok cfg2 => exact ih cfg2

/-- C5: parse_config resolves the legacy aliases first and then coerces
each value by the canonical key (integer window, exact decimal tolerance,
lowercased 1, true, yes booleans, float for every other key, unknown keys
stored as floats), ignoring tokens without an equals sign. -/
theorem claim_C5 (tokens : List String) :
    parse_config tokens = parse_config_spec tokens := by
  unfold parse_config parse_config_spec
  exact parse_config_go tokens DEFAULT_CONFIG

end FindDup

namespace FindDup

theorem short_setConfigValue (cfg : Config) (k v : String) (hk : k ∈ shortKeys) :
    setConfigValue cfg (aliasKey k) v = Ledger.setConfigValue cfg k v := by
  fin_cases hk <;>
    cases hI : parseIntS v <;> cases hD : parseDecimalS v <;> cases hF : parseFloatS v <;>
      simp [aliasKey, setConfigValue, Ledger.setConfigValue, hI, hD, hF]

theorem short_parse_go (tokens : List String)
    (h : ∀ part ∈ tokens, ((splitEq part).all fun kv => shortKeys.contains kv.1) = true) :
    ∀ cfg : Config,
      tokens.foldlM Ledger.parseStep cfg = tokens.foldlM parseStep cfg := by
  induction tokens with
  | nil => intro cfg; rfl
  | cons part rest ih =>
    intro cfg
    have hpart := h part (by simp)
    have hrest : ∀ part ∈ rest,
        ((splitEq part).all fun kv => shortKeys.contains kv.1) = true :=
      fun p hp => h p (by simp [hp])
    rw [List.foldlM_cons, List.foldlM_cons]
    cases hs : splitEq part with
    | none =>
      have h1 : Ledger.parseStep cfg part = .ok cfg := by simp [Ledger.parseStep, hs]
      have h2 : parseStep cfg part = .ok cfg := by simp [parseStep, hs]
      rw [h1, h2]
      exact ih hrest cfg
    | some kv =>
      rw [hs] at hpart
      have hmem : kv.1 ∈ shortKeys := by
        simpa [List.elem_iff] using hpart
      have h1 : Ledger.parseStep cfg part = Ledger.setConfigValue cfg kv.1 kv.2 := by
        simp [Ledger.parseStep, hs]
      have h2 : parseStep cfg part = Ledger.setConfigValue cfg kv.1 kv.2 := by
        simp [parseStep, hs, short_setConfigValue cfg kv.1 kv.2 hmem]
      rw [h1, h2]
      cases hr : Ledger.setConfigValue cfg kv.1 kv.2 with
      | error e => rfl
      | ok cfg2 => exact ih hrest cfg2

/-- C10: on a configuration whose key-value tokens use only the legacy
short key names, the src copy and the ledger copy of the detector agree:
same parse outcome, same diagnostics, same warnings. -/
theorem claim_C10 (entries : List Entry) (tokens : List String)
    (h : ∀ part ∈ tokens, ((splitEq part).all fun kv => shortKeys.contains kv.1) = true) :
    Ledger.plugin entries tokens = plugin entries tokens := by
  have hp : Ledger.parse_config tokens = parse_config tokens := by
    unfold Ledger.parse_config parse_config
    exact short_parse_go tokens h DEFAULT_CONFIG
  unfold plugin Ledger.plugin
  rw [hp]

theorem claim_C10_witness :
    Ledger.plugin exampleEntries ["warn_threshold=0.7", "skipme", "window=2"]
      = plugin exampleEntries ["warn_threshold=0.7", "skipme", "window=2"] :=
  claim_C10 exampleEntries ["warn_threshold=0.7", "skipme", "window=2"] (by decide)

end FindDup

namespace FindDup

theorem takeWhile_window_eq_filter (txn_a : Transaction) (window : ℤ) :
    ∀ l : List Transaction, l.Pairwise dateLe → (∀ b ∈ l, dateLe txn_a b) →
      (l.takeWhile fun txn_b => decide (|txn_b.date - txn_a.date| ≤ window))
        = l.filter fun txn_b => decide (|txn_b.date - txn_a.date| ≤ window) := by
  intro l
  induction l with
  | nil => intro _ _; rfl
  | cons b l ih =>
    intro hpw hall
    rw [List.pairwise_cons] at hpw
    by_cases hb : |b.date - txn_a.date| ≤ window
    · simp [List.takeWhile_cons, List.filter_cons, hb,
        ih hpw.2 fun c hc => hall c (List.mem_cons_of_mem b hc)]
    · have hfilter : (l.filter fun txn_b => decide (|txn_b.date - txn_a.date| ≤ window))
          = [] := by
        rw [List.filter_eq_nil_iff]
        intro c hc
        simp only [decide_eq_true_eq]
        have hab : txn_a.date ≤ b.date := hall b (List.mem_cons_self b l)
        have hbc : b.date ≤ c.date := hpw.1 c hc
        have h1 : |b.date - txn_a.date| = b.date - txn_a.date := abs_of_nonneg (by omega)
        have h2 : |c.date - txn_a.date| = c.date - txn_a.date := abs_of_nonneg (by omega)
        rw [h1] at hb
        rw [h2]
        omega
      simp [List.takeWhile_cons, List.filter_cons, hb, hfilter]

theorem cand_from_eq_window_from (window : ℤ) :
    ∀ l : List Transaction, l.Pairwise dateLe →
      candidate_pairs_from l window = window_pairs_from l window := by
  intro l
  induction l with
  | nil => intro _; rfl
  | cons a rest ih =>
    intro hpw
    rw [List.pairwise_cons] at hpw
    unfold candidate_pairs_from window_pairs_from
    rw [takeWhile_window_eq_filter a window rest hpw.2 hpw.1, ih hpw.2]

theorem mem_window_pairs_from (window : ℤ) :
    ∀ l : List Transaction, l.Pairwise dateLe →
      ∀ p ∈ window_pairs_from l window,
        p.1.date ≤ p.2.date ∧ |p.2.date - p.1.date| ≤ window := by
  intro l
  induction l with
  | nil => intro _ p hp; simp [window_pairs_from] at hp
  | cons a rest ih =>
    intro hpw p hp
    rw [List.pairwise_cons] at hpw
    unfold window_pairs_from at hp
    rw [List.mem_append] at hp
    rcases hp with hp | hp
    · rw [List.mem_map] at hp
      obtain ⟨b, hb, rfl⟩ := hp
      rw [List.mem_filter] at hb
      exact ⟨hpw.1 b hb.1, by simpa using hb.2⟩
    · exact ih hpw.2 p hp

theorem fst_mem_of_mem_cand_from (window : ℤ) :
    ∀ (l : List Transaction) (p : Transaction × Transaction),
      p ∈ candidate_pairs_from l window → p.1 ∈ l := by
  intro l
  induction l with
  | nil => intro p hp; simp [candidate_pairs_from] at hp
  | cons a rest ih =>
    intro p hp
    unfold candidate_pairs_from at hp
    rw [List.mem_append] at hp
    rcases hp with hp | hp
    · rw [List.mem_map] at hp
      obtain ⟨b, hb, rfl⟩ := hp
      exact List.mem_cons_self a rest
    · exact List.mem_cons_of_mem a (ih p hp)

theorem nodup_cand_from (window : ℤ) :
    ∀ l : List Transaction, l.Nodup → (candidate_pairs_from l window).Nodup := by
  intro l
  induction l with
  | nil => intro _; simp [candidate_pairs_from]
  | cons a rest ih =>
    intro hnd
    rw [List.nodup_cons] at hnd
    unfold candidate_pairs_from
    rw [List.nodup_append]
    refine ⟨?_, ih hnd.2, ?_⟩
    · refine List.Nodup.map ?_ ((List.takeWhile_sublist _).nodup hnd.2)
      intro x y hxy
      simpa using hxy
    · intro p hp1 hp2
      rw [List.mem_map] at hp1
      obtain ⟨b, hb, rfl⟩ := hp1
      exact hnd.1 (fst_mem_of_mem_cand_from window rest (a, b) hp2)

/-- C4: the candidate generator yields exactly the in-window pairs of the
date-sorted list, each pair carrying the chronologically earlier (or tied,
by sorted position) transaction first, with a day gap within the window,
and distinct transactions are paired at most once. -/
theorem claim_C4 (txns : List Transaction) (window : ℤ) (hnd : txns.Nodup) :
    candidate_pairs txns window = window_pairs txns window
    ∧ (∀ p ∈ candidate_pairs txns window,
        p.1.date ≤ p.2.date ∧ |p.2.date - p.1.date| ≤ window)
    ∧ (candidate_pairs txns window).Nodup := by
  have hsorted : (txns.insertionSort dateLe).Pairwise dateLe :=
    List.sorted_insertionSort dateLe txns
  have hnds : (txns.insertionSort dateLe).Nodup :=
    ((List.perm_insertionSort dateLe txns).nodup_iff).mpr hnd
  unfold candidate_pairs window_pairs
  refine ⟨cand_from_eq_window_from window _ hsorted, ?_, nodup_cand_from window _ hnds⟩
  rw [cand_from_eq_window_from window _ hsorted]
  exact mem_window_pairs_from window _ hsorted

theorem claim_C4_witness :
    (candidate_pairs [exampleTxnA, exampleTxnB, propertyTxnA] 1
        = window_pairs [exampleTxnA, exampleTxnB, propertyTxnA] 1)
    ∧ (∀ p ∈ candidate_pairs [exampleTxnA, exampleTxnB, propertyTxnA] 1,
        p.1.date ≤ p.2.date ∧ |p.2.date - p.1.date| ≤ 1)
    ∧ (candidate_pairs [exampleTxnA, exampleTxnB, propertyTxnA] 1).Nodup :=
  claim_C4 [exampleTxnA, exampleTxnB, propertyTxnA] 1 (by decide)

end FindDup
